import Mathlib

/-!
Shallow embedding of the voxel-dag HashDAG core (src/lib.rs, src/utils.rs,
src/constants.rs, src/hash_table/basic.rs, src/validation.rs, src/tracking.rs,
src/staging.rs, src/editing/*) in Lean 4, together with theorems settling the
frozen claims about the natural-language specification.

Machine integers (u32/u64/u128/usize) are modelled as Nat with explicit
truncation (mod 2 ^ w) exactly where the Rust code wraps; fallible Rust code
(Result<T, String>) is modelled by an explicit result type that also records
panics (unwrap / out-of-bounds indexing), and stateful methods return the
result together with the updated table state, so that mutations performed
before an early error return are visible, as in the Rust original.
-/

namespace VoxelDag

/-! ## Constants (src/constants.rs) -/

def SEED : Nat := 0
def PAGE_LEN : Nat := 512
def SUPPORTED_LEVELS : Nat := 17
def COLOR_TREE_LEVELS : Nat := SUPPORTED_LEVELS - 7
def LEAF_LEVELS : Nat := 2
def LEAF_LEVEL : Nat := SUPPORTED_LEVELS - LEAF_LEVELS
def HI_BUCKET_LEN : Nat := 1024
def LO_BUCKET_LEN : Nat := 4096
def HI_PAGES_PER_BUCKET : Nat := HI_BUCKET_LEN / PAGE_LEN
def LO_PAGES_PER_BUCKET : Nat := LO_BUCKET_LEN / PAGE_LEN
def BUCKETS_PER_HI_LEVEL : Nat := 1 <<< 10
def BUCKETS_PER_LO_LEVEL : Nat := 1 <<< 16
def HI_LEVELS : Nat := 9
def LO_LEVELS : Nat := SUPPORTED_LEVELS - HI_LEVELS
def TOTAL_HI_BUCKETS : Nat := HI_LEVELS * BUCKETS_PER_HI_LEVEL
def TOTAL_LO_BUCKETS : Nat := LO_LEVELS * BUCKETS_PER_LO_LEVEL
def TOTAL_BUCKETS : Nat := TOTAL_HI_BUCKETS + TOTAL_LO_BUCKETS
def TOTAL_PAGES : Nat :=
  TOTAL_HI_BUCKETS * HI_PAGES_PER_BUCKET + TOTAL_LO_BUCKETS * LO_PAGES_PER_BUCKET
def TOTAL_VIRT_SPACE : Nat := TOTAL_PAGES * PAGE_LEN

/-- The all-ones 32-bit word (Rust !0u32), used as the unallocated sentinel. -/
def SENT : Nat := 2 ^ 32 - 1

/-! ## Result type

Models Rust Result<T, String> plus panics: ok / err mirror Ok / Err, and
fatal marks a panic (an unwrap on Err / None or an out-of-bounds index). -/

inductive Res (α : Type) where
  | ok : α → Res α
  | err : String → Res α
  | fatal : Res α
deriving DecidableEq, Repr

/-! ## Bit utilities -/

/-- Number of set bits among the low n bits (u8 / u64 count_ones after a cast). -/
def popcount (n w : Nat) : Nat := ((List.range n).filter (fun i => w.testBit i)).length

/-- (x as u8).count_ones() -/
def popcount8 (w : Nat) : Nat := popcount 8 w

/-! ## Hashing (src/utils.rs) -/

def murmur_hash_64 (h : Nat) : Nat :=
  let h1 := h ^^^ (h >>> 33)
  let h2 := (h1 * 0xff51afd7ed558ccd) % 2 ^ 64
  let h3 := h2 ^^^ (h2 >>> 33)
  let h4 := (h3 * 0xc4ceb9fe1a85ec53) % 2 ^ 64
  h4 ^^^ (h4 >>> 33)

/-- One loop iteration of murmur_hash_32: mixes word k into state h (u32). -/
def murmur_step (h k0 : Nat) : Nat :=
  let k1 := (k0 * 0xcc9e2d51) % 2 ^ 32
  let k2 := ((k1 <<< 15) % 2 ^ 32) ||| (k1 >>> 17)
  let k3 := (k2 * 0x1b873593) % 2 ^ 32
  let h1 := h ^^^ k3
  let h2 := ((h1 <<< 13) % 2 ^ 32) ||| (h1 >>> 19)
  (h2 * 5 + 0xe6546b64) % 2 ^ 32

def murmur_hash_32 (node : List Nat) : Nat :=
  let h := node.foldl murmur_step SEED
  let h0 := h ^^^ (node.length % 2 ^ 32)
  let h1 := h0 ^^^ (h0 >>> 16)
  let h2 := (h1 * 0x85ebca6b) % 2 ^ 32
  let h3 := h2 ^^^ (h2 >>> 13)
  let h4 := (h3 * 0xc2b2ae35) % 2 ^ 32
  h4 ^^^ (h4 >>> 16)

/-- (leaf[1] as u64) << 32 | leaf[0] as u64 -/
def as_leaf_mask (leaf : List Nat) : Nat := (leaf.getD 1 0) <<< 32 ||| leaf.getD 0 0

def hash_leaf (leaf : List Nat) : Nat := murmur_hash_64 (as_leaf_mask leaf) % 2 ^ 32

def hash_interior (node : List Nat) : Nat := murmur_hash_32 node

def count_leaves (leaf : List Nat) : Nat := popcount 64 (as_leaf_mask leaf)

/-! ## Address arithmetic (src/utils.rs) -/

def new_bucket_len_idx (level bucket : Nat) : Nat :=
  (if level < HI_LEVELS then level * BUCKETS_PER_HI_LEVEL
   else TOTAL_HI_BUCKETS + (level - HI_LEVELS) * BUCKETS_PER_LO_LEVEL) + bucket

def buckets_per_level (level : Nat) : Nat :=
  if level < HI_LEVELS then BUCKETS_PER_HI_LEVEL else BUCKETS_PER_LO_LEVEL

def new_bucket_len (level : Nat) : Nat :=
  if level < HI_LEVELS then HI_BUCKET_LEN else LO_BUCKET_LEN

def bucket_from_hash (level hash : Nat) : Nat := hash &&& (buckets_per_level level - 1)

def HI : Nat := TOTAL_HI_BUCKETS * HI_BUCKET_LEN

/-- The raw virtual-pointer value new_vptr computes before its final range
check (the idx expression in src/utils.rs). The u32 arithmetic wraps in
release builds, so the whole composed index is taken mod 2 ^ 32; on u32
inputs this agrees with the wrapping chain, the lone subtraction being
guarded by the branch condition. -/
def raw_vptr (level bucket offset_bucket : Nat) : Nat :=
  ((if level < HI_LEVELS then new_bucket_len_idx level bucket * HI_BUCKET_LEN
    else HI + ((level - HI_LEVELS) * BUCKETS_PER_LO_LEVEL + bucket) * LO_BUCKET_LEN)
   + offset_bucket) % 2 ^ 32

def new_vptr (level bucket offset_bucket : Nat) : Res Nat :=
  if level < HI_LEVELS then
    if HI_BUCKET_LEN ≤ offset_bucket then
      .err "Creating pointer: Bucket offset out of bounds! (Top level)"
    else
      let idx := (new_bucket_len_idx level bucket * HI_BUCKET_LEN + offset_bucket) % 2 ^ 32
      if idx < TOTAL_VIRT_SPACE then .ok idx
      else .err "Creating pointer: Virtual pointer is out of bounds!"
  else if LO_BUCKET_LEN ≤ offset_bucket then
    .err "Creating pointer: Bucket offset out of bounds! (Low level)"
  else if BUCKETS_PER_LO_LEVEL ≤ bucket then
    .err "Creating pointer: Bucket too large!"
  else
    let idx :=
      (HI + ((level - HI_LEVELS) * BUCKETS_PER_LO_LEVEL + bucket) * LO_BUCKET_LEN
        + offset_bucket) % 2 ^ 32
    if idx < TOTAL_VIRT_SPACE then .ok idx
    else .err "Creating pointer: Virtual pointer is out of bounds!"

/-- vptr_to_lvl; the wrapping subtraction vptr.overflowing_sub(HI).0 is modelled
as (vptr + 2 ^ 32 - HI) % 2 ^ 32. -/
def vptr_to_lvl (vptr : Nat) : Nat :=
  let hi := vptr / (BUCKETS_PER_HI_LEVEL * HI_BUCKET_LEN)
  let lo := ((vptr + 2 ^ 32 - HI) % 2 ^ 32) / (BUCKETS_PER_LO_LEVEL * LO_BUCKET_LEN)
    + HI_LEVELS
  let is_hi_lvl : Nat := if vptr < HI then 1 else 0
  is_hi_lvl * hi + (1 - is_hi_lvl) * lo

/-- path.map_with_location: row r gets (v << 1) | (child >> (2 - r)) & 1. -/
structure V3 where
  x : Nat
  y : Nat
  z : Nat
deriving DecidableEq, Repr

def descend (path : V3) (child : Nat) : V3 :=
  { x := path.x <<< 1 ||| (child >>> 2) &&& 1
  , y := path.y <<< 1 ||| (child >>> 1) &&& 1
  , z := path.z <<< 1 ||| child &&& 1 }

/-! ## Table state (src/hash_table/basic.rs, src/shared_hash_dag.rs,
src/tracking.rs)

The pool, page table (lut), bucket-length table and tracker masks are
modelled as total functions from indices to word values; the Rust arrays
are the restrictions of these functions to their index ranges. -/

structure Table where
  full_node_pointers : Nat → Nat
  lut : Nat → Nat
  hi : Nat
  bucket_len : Nat → Nat
  pool : Nat → Nat
  pool_len : Nat
  pool_mask : Nat → Nat
  page_table_mask : Nat

/-- Point update of a word-array function. -/
def fun_update (f : Nat → Nat) (i v : Nat) : Nat → Nat := fun j => if j = i then v else f j

/-- copy_from_slice: writes the words of ws starting at off. -/
def fun_write : (Nat → Nat) → Nat → List Nat → (Nat → Nat)
  | f, _, [] => f
  | f, off, w :: ws => fun_write (fun_update f off w) (off + 1) ws

/-- The slice pool[i..i+n] as a list. -/
def read_words (pool : Nat → Nat) (i n : Nat) : List Nat :=
  (List.range n).map (fun k => pool (i + k))

/-- PageLUT::is_allocated (the deref of the LUT excludes the trailing hi slot,
so only pages below TOTAL_PAGES exist). -/
def is_allocated (t : Table) (page : Nat) : Res Bool :=
  if page < TOTAL_PAGES then .ok (t.lut page != SENT)
  else .err "Trying to lookup a non-existing page."

/-- HashTable::pool_idx. -/
def pool_idx (t : Table) (vptr : Nat) : Res Nat :=
  let page := vptr / PAGE_LEN
  let offset := vptr % PAGE_LEN
  match is_allocated t page with
  | .ok true =>
    let idx := t.lut page + offset
    if idx < t.hi * PAGE_LEN then .ok idx
    else .err "Virtual pointer points to out of bound memory."
  | .ok false => .err "Virtual pointer points to unallocated memory."
  | .err e => .err e
  | .fatal => .fatal

/-- HashDAG::get. -/
def get_word (t : Table) (vptr : Nat) : Res Nat :=
  match pool_idx t vptr with
  | .ok i => .ok (t.pool i)
  | .err e => .err e
  | .fatal => .fatal

/-- HashDAG::leaf: the two words at the pointer. -/
def leaf_at (t : Table) (vptr : Nat) : Res (List Nat) :=
  match pool_idx t vptr with
  | .ok i => .ok [t.pool i, t.pool (i + 1)]
  | .err e => .err e
  | .fatal => .fatal

/-- HashDAG::interior: header plus popcount(header low 8) child words. -/
def interior_at (t : Table) (vptr : Nat) : Res (List Nat) :=
  match pool_idx t vptr with
  | .ok i => .ok (read_words t.pool i (popcount8 (t.pool i) + 1))
  | .err e => .err e
  | .fatal => .fatal

/-- HashTable::full_node_ptr: the array has LEAF_LEVEL + 1 entries. -/
def full_node_ptr (t : Table) (level : Nat) : Res Nat :=
  if level < LEAF_LEVEL + 1 then .ok (t.full_node_pointers level)
  else .err "Trying a full node lookup with a non-existing level."

/-- HashTable::bucket_len accessor. -/
def bucket_len_at (t : Table) (level bucket : Nat) : Nat :=
  t.bucket_len (new_bucket_len_idx level bucket)

/-- PageLUT::allocate followed by SharedHashDAG::allocate's capacity check
(release semantics: the debug assertion against double allocation is not
compiled in). The LUT entry and hi counter are written before the check. -/
def allocate (t : Table) (page : Nat) : Res Unit × Table :=
  let t1 := { t with lut := fun_update t.lut page (t.hi * PAGE_LEN), hi := t.hi + 1 }
  if t1.pool_len < t1.hi * PAGE_LEN then
    (.err "No space is left to allocate! Consider resizing your pool.", t1)
  else (.ok (), t1)

/-! Tracker (src/tracking.rs, BasicTracker). -/

def POOL_MASK_BITS : Nat := 8
def LUT_MASK_BITS : Nat := 8
def POOL_MASK_BIT_LEN : Nat := PAGE_LEN
def LUT_MASK_BIT_LEN : Nat := TOTAL_PAGES / LUT_MASK_BITS

/-- BasicTracker::register for the word range rstart..rend. -/
def register (t : Table) (vptr rstart rend : Nat) : Res Unit × Table :=
  let idx := rstart / POOL_MASK_BIT_LEN
  if idx ≠ (rend - 1) / POOL_MASK_BIT_LEN then
    (.err "Cannot register a range spanning beyond a page.", t)
  else
    (.ok (),
     { t with
       pool_mask := fun_update t.pool_mask (idx / POOL_MASK_BITS)
         (t.pool_mask (idx / POOL_MASK_BITS) ||| (1 <<< (idx % POOL_MASK_BITS)))
       page_table_mask :=
         t.page_table_mask ||| (1 <<< (vptr / PAGE_LEN / LUT_MASK_BIT_LEN)) })

/-! ## Validation (src/validation.rs) -/

inductive Validation where
  | valid : Validation
  | invalid : String → Validation
deriving DecidableEq, Repr

/-- Node<'pool>: Strict data is unvalidated, Pass data is treated as valid. -/
inductive VNode where
  | strict : List Nat → VNode
  | pass : List Nat → VNode
deriving DecidableEq, Repr

def VNode.data : VNode → List Nat
  | .strict ws => ws
  | .pass ws => ws

structure LevelInfo where
  is_color_tree_level : Bool
  is_last_interior : Bool
deriving DecidableEq, Repr

def LevelInfo.new (level : Nat) : LevelInfo :=
  { is_color_tree_level := decide (COLOR_TREE_LEVELS ≤ level)
  , is_last_interior := decide (level + 1 = LEAF_LEVEL) }

/-- validation::utils::validate_leaf: only the Strict all-zero leaf is
rejected. -/
def validate_leaf (node : VNode) : Res Validation :=
  match node with
  | .strict [0, 0] => .ok (.invalid "Invalid node: The leaf mask contains no leaves!")
  | _ => .ok .valid

/-- The voxel-count loop of validate_interior: at the last interior level the
children are leaves whose bits are counted, otherwise the children's header
high bits are summed; below the color-tree range the sum is 0. -/
def sum_leaf_counts (t : Table) : List Nat → Res Nat
  | [] => .ok 0
  | vp :: rest =>
    match leaf_at t vp with
    | .ok l =>
      match sum_leaf_counts t rest with
      | .ok s => .ok (count_leaves l + s)
      | .err e => .err e
      | .fatal => .fatal
    | .err e => .err e
    | .fatal => .fatal

def sum_interior_counts (t : Table) : List Nat → Res Nat
  | [] => .ok 0
  | vp :: rest =>
    match get_word t vp with
    | .ok w =>
      match sum_interior_counts t rest with
      | .ok s => .ok (w >>> 8 + s)
      | .err e => .err e
      | .fatal => .fatal
    | .err e => .err e
    | .fatal => .fatal

def child_count_sum (t : Table) (info : LevelInfo) (ws : List Nat) : Res Nat :=
  if info.is_color_tree_level then
    if info.is_last_interior then sum_leaf_counts t (ws.drop 1)
    else sum_interior_counts t (ws.drop 1)
  else .ok 0

/-- validation::utils::validate_interior. Pass nodes are accepted outright; a
Strict node is rejected when its length is 1 or exceeds 9, and otherwise its
header high bits are compared against the computed child voxel count. The
empty Strict node indexes interior[0] out of bounds, a panic. -/
def validate_interior (t : Table) (node : VNode) (info : LevelInfo) : Res Validation :=
  match node with
  | .pass _ => .ok .valid
  | .strict interior =>
    if interior.length = 1 ∨ 9 < interior.length then
      .ok (.invalid "Invalid node: The interior node's child mask is invalid.")
    else
      match child_count_sum t info interior with
      | .err e => .err e
      | .fatal => .fatal
      | .ok voxel_count =>
        match interior with
        | [] => .fatal
        | w :: _ =>
          if w >>> 8 < voxel_count then
            .ok (.invalid "Invalid node: The voxel count is too low!")
          else if w >>> 8 = voxel_count then .ok .valid
          else .ok (.invalid "Invalid node: The voxel count is too high!")

/-- Node::validated_as_leaf. -/
def validated_as_leaf (node : VNode) : Res VNode :=
  match validate_leaf node with
  | .ok .valid => .ok (.pass node.data)
  | .ok (.invalid msg) => .err msg
  | .err e => .err e
  | .fatal => .fatal

/-- Node::validated_as_interior. -/
def validated_as_interior (t : Table) (node : VNode) (info : LevelInfo) : Res VNode :=
  match validate_interior t node info with
  | .ok .valid => .ok (.pass node.data)
  | .ok (.invalid msg) => .err msg
  | .err e => .err e
  | .fatal => .fatal

/-! ## Bucket search (src/hash_table/basic.rs) -/

/-- HashTable::find_leaf: the offsets 0, 2, ... below bucket_len (the
step_by(2) iterator of the source), searched with find_map; every window is
read linearly from the bucket's base pool index, which is resolved once. -/
def find_leaf (t : Table) (bucket bucket_len : Nat) (leaf : List Nat) : Res (Option Nat) :=
  if new_bucket_len LEAF_LEVEL < bucket_len then
    .err "Trying to find a leaf with an overflowing bucket size."
  else
    match new_vptr LEAF_LEVEL bucket 0 with
    | .ok vptr =>
      match pool_idx t vptr with
      | .ok pi =>
        .ok ((List.range' 0 ((bucket_len + 1) / 2) 2).findSome?
          (fun off => if leaf = read_words t.pool (pi + off) 2 then some (vptr + off) else none))
      | .err e => .err e
      | .fatal => .fatal
    | .err e => .err e
    | .fatal => .fatal

/-- The while loop of find_in_page, with an explicit iteration bound: each hop
advances the offset by popcount(header low 8) + 1 ≥ 1, so fuel = ub − off
(supplied by the wrapper below) makes the fueled loop equal the source's
while loop. All offsets are taken linearly from the bucket's base pool
index. -/
def find_in_page_go (pool : Nat → Nat) (base_idx base_ptr : Nat) (interior : List Nat)
    (ub : Nat) : Nat → Nat → Option Nat
  | _, 0 => none
  | off, fuel + 1 =>
    if off < ub then
      if interior = read_words pool (base_idx + off) interior.length then
        some (base_ptr + off)
      else
        find_in_page_go pool base_idx base_ptr interior ub
          (off + (popcount8 (pool (base_idx + off)) + 1)) fuel
    else none

/-- find_in_page of find_interior. -/
def find_in_page (pool : Nat → Nat) (base_idx base_ptr : Nat) (interior : List Nat)
    (off ub : Nat) : Option Nat :=
  find_in_page_go pool base_idx base_ptr interior ub off (ub - off)

/-- HashTable::find_interior: walks the complete pages, then the overflow tail
only when the node fits in it. -/
def find_interior (t : Table) (level bucket bucket_len : Nat) (interior : List Nat) :
    Res (Option Nat) :=
  let node_len := interior.length
  if new_bucket_len level < bucket_len then
    .err "Trying to find an interior node with an overflowing bucket size."
  else
    match new_vptr level bucket 0 with
    | .ok base_ptr =>
      match pool_idx t base_ptr with
      | .ok base_idx =>
        let overflow := bucket_len % PAGE_LEN
        let clipped := bucket_len - overflow
        let found := (List.range (clipped / PAGE_LEN)).findSome?
          (fun k => find_in_page t.pool base_idx base_ptr interior (k * PAGE_LEN)
            (k * PAGE_LEN + PAGE_LEN))
        .ok (match found with
          | none =>
            if node_len ≤ overflow then
              find_in_page t.pool base_idx base_ptr interior clipped bucket_len
            else none
          | some v => some v)
      | .err e => .err e
      | .fatal => .fatal
    | .err e => .err e
    | .fatal => .fatal

/-! ## Insertion (src/lib.rs) -/

/-- HashDAGMut::add_leaf. All writes (page allocation, pool words, bucket
length) happen before the overflow check, so they persist on the error
path. -/
def add_leaf (t : Table) (node0 : VNode) (hash : Nat) : Res Nat × Table :=
  match validated_as_leaf node0 with
  | .err e => (.err e, t)
  | .fatal => (.fatal, t)
  | .ok node =>
    let bucket := bucket_from_hash LEAF_LEVEL hash
    let bidx := new_bucket_len_idx LEAF_LEVEL bucket
    let blen := t.bucket_len bidx
    match new_vptr LEAF_LEVEL bucket blen with
    | .err e => (.err e, t)
    | .fatal => (.fatal, t)
    | .ok vptr =>
      match (if blen % PAGE_LEN = 0 then allocate t (vptr / PAGE_LEN) else (.ok (), t)) with
      | (.err e, t1) => (.err e, t1)
      | (.fatal, t1) => (.fatal, t1)
      | (.ok _, t1) =>
        match pool_idx t1 vptr with
        | .err e => (.err e, t1)
        | .fatal => (.fatal, t1)
        | .ok pi =>
          let t2 := { t1 with pool := fun_write t1.pool pi node.data }
          let t3 := { t2 with bucket_len := fun_update t2.bucket_len bidx (t2.bucket_len bidx + 2) }
          if t3.bucket_len bidx < new_bucket_len LEAF_LEVEL then
            match register t3 vptr pi (pi + 2) with
            | (.ok _, t4) => (.ok vptr, t4)
            | (.err e, t4) => (.err e, t4)
            | (.fatal, t4) => (.fatal, t4)
          else (.err "Overflowing bucket on leaf level!", t3)

/-- HashDAGMut::add_interior. If the node does not fit in the current page's
remaining space the bucket length is advanced to the page boundary (wasting
the remainder) and a fresh page is allocated. -/
def add_interior (t : Table) (level : Nat) (node0 : VNode) (hash : Nat) : Res Nat × Table :=
  match validated_as_interior t node0 (LevelInfo.new level) with
  | .err e => (.err e, t)
  | .fatal => (.fatal, t)
  | .ok node =>
    let node_len := node.data.length
    let bucket := bucket_from_hash level hash
    let bidx := new_bucket_len_idx level bucket
    let blen0 := t.bucket_len bidx
    let page_space_left := PAGE_LEN - blen0 % PAGE_LEN
    let would_overflow := page_space_left < node_len
    let blen := if would_overflow then blen0 + page_space_left else blen0
    match new_vptr level bucket blen with
    | .err e => (.err e, t)
    | .fatal => (.fatal, t)
    | .ok vptr =>
      match (if PAGE_LEN = page_space_left ∨ would_overflow then allocate t (vptr / PAGE_LEN)
             else (.ok (), t)) with
      | (.err e, t1) => (.err e, t1)
      | (.fatal, t1) => (.fatal, t1)
      | (.ok _, t1) =>
        match pool_idx t1 vptr with
        | .err e => (.err e, t1)
        | .fatal => (.fatal, t1)
        | .ok pi =>
          let t2 := { t1 with pool := fun_write t1.pool pi node.data }
          let t3 := { t2 with bucket_len := fun_update t2.bucket_len bidx (blen + node_len) }
          if t3.bucket_len bidx < new_bucket_len level then
            match register t3 vptr pi (pi + node_len) with
            | (.ok _, t4) => (.ok vptr, t4)
            | (.err e, t4) => (.err e, t4)
            | (.fatal, t4) => (.fatal, t4)
          else (.err ("Overflowing bucket on level " ++ toString level ++ "!"), t3)

/-! ## Deduplication layer (src/lib.rs) -/

/-- HashDAGMut::find_or_add_leaf. The full-node lookup and its leaf read are
unwrapped: a failure there is a panic (fatal), not an error return. -/
def find_or_add_leaf (t : Table) (node0 : VNode) : Res Nat × Table :=
  match validated_as_leaf node0 with
  | .err e => (.err e, t)
  | .fatal => (.fatal, t)
  | .ok node =>
    let hash := hash_leaf node.data
    let bucket := bucket_from_hash LEAF_LEVEL hash
    match full_node_ptr t LEAF_LEVEL with
    | .err _ => (.fatal, t)
    | .fatal => (.fatal, t)
    | .ok fptr =>
      match leaf_at t fptr with
      | .err _ => (.fatal, t)
      | .fatal => (.fatal, t)
      | .ok full_leaf =>
        if node.data = full_leaf then (.ok fptr, t)
        else
          match new_vptr LEAF_LEVEL bucket 0 with
          | .err e => (.err e, t)
          | .fatal => (.fatal, t)
          | .ok base =>
            match is_allocated t (base / PAGE_LEN) with
            | .err e => (.err e, t)
            | .fatal => (.fatal, t)
            | .ok alloc =>
              if !alloc then add_leaf t node hash
              else
                match find_leaf t bucket (bucket_len_at t LEAF_LEVEL bucket) node.data with
                | .err e => (.err e, t)
                | .fatal => (.fatal, t)
                | .ok (some v) => (.ok v, t)
                | .ok none =>
                  match find_leaf t bucket (bucket_len_at t LEAF_LEVEL bucket) node.data with
                  | .err e => (.err e, t)
                  | .fatal => (.fatal, t)
                  | .ok (some v) => (.ok v, t)
                  | .ok none => add_leaf t node hash

/-- HashDAGMut::find_or_add_interior. full_node_ptr uses the question-mark
operator (an error return), but the interior read of the full node is
unwrapped (a panic on failure). -/
def find_or_add_interior (t : Table) (level : Nat) (node0 : VNode) : Res Nat × Table :=
  match validated_as_interior t node0 (LevelInfo.new level) with
  | .err e => (.err e, t)
  | .fatal => (.fatal, t)
  | .ok node =>
    let hash := hash_interior node.data
    let bucket := bucket_from_hash level hash
    match full_node_ptr t level with
    | .err e => (.err e, t)
    | .fatal => (.fatal, t)
    | .ok fptr =>
      match interior_at t fptr with
      | .err _ => (.fatal, t)
      | .fatal => (.fatal, t)
      | .ok full_node =>
        if node.data = full_node then (.ok fptr, t)
        else
          match new_vptr level bucket 0 with
          | .err e => (.err e, t)
          | .fatal => (.fatal, t)
          | .ok base =>
            match is_allocated t (base / PAGE_LEN) with
            | .err e => (.err e, t)
            | .fatal => (.fatal, t)
            | .ok alloc =>
              if !alloc then add_interior t level node hash
              else
                match find_interior t level bucket (bucket_len_at t level bucket) node.data with
                | .err e => (.err e, t)
                | .fatal => (.fatal, t)
                | .ok (some v) => (.ok v, t)
                | .ok none =>
                  match find_interior t level bucket (bucket_len_at t level bucket) node.data with
                  | .err e => (.err e, t)
                  | .fatal => (.fatal, t)
                  | .ok (some v) => (.ok v, t)
                  | .ok none => add_interior t level node hash

/-! ## Initializers (src/hash_table/basic.rs blank, src/shared_hash_dag.rs) -/

/-- HashTable::blank (with a default tracker): capacity is rounded up to a
multiple of 128 pages; the LUT is all sentinels, bucket lengths zero. -/
def blank (capacity0 : Nat) : Res Table :=
  let block_len := PAGE_LEN * 128
  let capacity := capacity0 + (block_len - capacity0 % block_len) % block_len
  if TOTAL_VIRT_SPACE < capacity ∨ capacity = 0 then
    .err ("Cannot allocate " ++ toString capacity ++ " words to a pool!")
  else
    .ok
      { full_node_pointers := fun _ => SENT
      , lut := fun _ => SENT
      , hi := 0
      , bucket_len := fun _ => 0
      , pool := fun _ => 0
      , pool_len := capacity
      , pool_mask := fun _ => 0
      , page_table_mask := 0 }

/-- SharedHashDAG::add_full_leaf (the unwrap on failure is a panic). -/
def add_full_leaf (t : Table) : Res Table :=
  match add_leaf t (.pass [SENT, SENT]) (hash_leaf [SENT, SENT]) with
  | (.ok v, t1) => .ok { t1 with full_node_pointers := fun_update t1.full_node_pointers LEAF_LEVEL v }
  | (_, _) => .fatal

/-- SharedHashDAG::add_full_interior. -/
def add_full_interior (t : Table) (level : Nat) : Res Table :=
  let hdr : Nat :=
    if COLOR_TREE_LEVELS ≤ level then 0xff ||| ((1 <<< (3 * (SUPPORTED_LEVELS - level))) <<< 8)
    else 0xff
  let child := t.full_node_pointers (level + 1)
  let ws := hdr :: List.replicate 8 child
  match add_interior t level (.pass ws) (hash_interior ws) with
  | (.ok v, t1) => .ok { t1 with full_node_pointers := fun_update t1.full_node_pointers level v }
  | (_, _) => .fatal

/-! ## Staging (src/staging.rs)

stage walks the tracker masks bit by bit, merging consecutive set bits into
one (src, dst, len) range; a clear bit flushes the pending range and advances
only the destination cursor. The pool mask is consumed as little-endian
u128 chunks with all-ones / all-zero fast paths. The emitted callback pairs
(src..src+len, dst..dst+len) are recorded as (src, dst, len) triples. -/

structure StageSt where
  src : Nat
  dst : Nat
  len : Nat
  out : List (Nat × Nat × Nat)
deriving DecidableEq, Repr

/-- Processing of one mask bit (the inner shift loop plus write_if_end). -/
def step_bit (bit_len : Nat) (st : StageSt) (b : Bool) : StageSt :=
  if b then { st with len := st.len + bit_len }
  else if st.len ≠ 0 then
    { src := st.src + st.len, dst := st.dst + st.len + bit_len, len := 0
    , out := st.out ++ [(st.src, st.dst, st.len)] }
  else { st with dst := st.dst + bit_len }

/-- The trailing flush after the loop. -/
def stage_flush (st : StageSt) : List (Nat × Nat × Nat) :=
  if st.len ≠ 0 then st.out ++ [(st.src, st.dst, st.len)] else st.out

/-- The bits of one mask byte in shift order 0..8. -/
def byte_bits (mask : Nat) : List Bool :=
  (List.range 8).map (fun s => mask &&& (1 <<< s) != 0)

/-- The page-table (LUT) pass of stage. -/
def stage_lut (mask : Nat) : List (Nat × Nat × Nat) :=
  stage_flush ((byte_bits mask).foldl (step_bit LUT_MASK_BIT_LEN) ⟨0, 0, 0, []⟩)

/-- The bits of a u128 chunk, via its little-endian bytes. -/
def chunk_bits (c : Nat) : List Bool :=
  ((List.range 16).map (fun i => byte_bits (c >>> (8 * i) &&& 255))).flatten

/-- Processing of one u128 chunk of the pool mask (with the fast paths). -/
def step_chunk (st : StageSt) (c : Nat) : StageSt :=
  if c = 2 ^ 128 - 1 then { st with len := st.len + 128 * POOL_MASK_BIT_LEN }
  else if c = 0 then
    if st.len ≠ 0 then
      { src := st.src + st.len, dst := st.dst + st.len + 128 * POOL_MASK_BIT_LEN, len := 0
      , out := st.out ++ [(st.src, st.dst, st.len)] }
    else { st with dst := st.dst + 128 * POOL_MASK_BIT_LEN }
  else (chunk_bits c).foldl (step_bit POOL_MASK_BIT_LEN) st

/-- The pool pass of stage over the mask's u128 chunks. -/
def stage_pool (chunks : List Nat) : List (Nat × Nat × Nat) :=
  stage_flush (chunks.foldl step_chunk ⟨0, 0, 0, []⟩)

/-- align_to::<u128> over the mask byte array (length a multiple of 16). -/
def to_chunks (bytes : List Nat) : List Nat :=
  (List.range (bytes.length / 16)).map
    (fun k => (List.range 16).foldr (fun i acc => bytes.getD (16 * k + i) 0 + 256 * acc) 0)

def stage_pool_bytes (bytes : List Nat) : List (Nat × Nat × Nat) :=
  stage_pool (to_chunks bytes)

/-! ## Editing (src/editing/mod.rs, src/editing/inner.rs,
src/editing/shapes.rs, src/basic_dag.rs) -/

inductive Operation where
  | link : Operation
  | unlink : Operation
deriving DecidableEq, Repr

/-- basic_dag::OctVox. -/
structure OctVox where
  depth : Nat
  path : V3
deriving DecidableEq, Repr

def OctVox.new (level : Nat) (path : V3) : OctVox :=
  { depth := SUPPORTED_LEVELS - level, path := path }

structure IV3 where
  x : Int
  y : Int
  z : Int
deriving DecidableEq, Repr

/-- shapes::AABB over signed 64-bit coordinates. -/
structure AABB where
  min : IV3
  max : IV3
deriving DecidableEq, Repr

/-- From<OctVox> for AABB: min = path << depth (u32 shift, wrapping), max =
min + (1 << depth). -/
def AABB.from_oct_vox (o : OctVox) : AABB :=
  let mn : IV3 :=
    { x := ((o.path.x <<< o.depth) % 2 ^ 32 : Nat)
    , y := ((o.path.y <<< o.depth) % 2 ^ 32 : Nat)
    , z := ((o.path.z <<< o.depth) % 2 ^ 32 : Nat) }
  { min := mn
  , max := { x := mn.x + (1 <<< o.depth : Nat), y := mn.y + (1 <<< o.depth : Nat)
           , z := mn.z + (1 <<< o.depth : Nat) } }

def AABB.collides (s e : AABB) : Bool :=
  decide (¬(e.max.x ≤ s.min.x ∨ s.max.x ≤ e.min.x ∨ e.max.y ≤ s.min.y ∨
    s.max.y ≤ e.min.y ∨ e.max.z ≤ s.min.z ∨ s.max.z ≤ e.min.z))

def AABB.will_be_full (s : AABB) (after : Operation) (e : AABB) : Bool :=
  decide (after = .link ∧ s.min.x ≤ e.min.x ∧ s.max.x ≥ e.max.x ∧ s.min.y ≤ e.min.y ∧
    s.max.y ≥ e.max.y ∧ s.min.z ≤ e.min.z ∧ s.max.z ≥ e.max.z)

def AABB.will_be_empty (s : AABB) (after : Operation) (e : AABB) : Bool :=
  decide (after = .unlink ∧ s.min.x ≤ e.min.x ∧ s.max.x ≥ e.max.x ∧ s.min.y ≤ e.min.y ∧
    s.max.y ≥ e.max.y ∧ s.min.z ≤ e.min.z ∧ s.max.z ≥ e.max.z)

/-- A Shape instance, shallowly embedded as its behavior on the OctVox
projections (the composition of S::Edit::from with the shape's methods). -/
structure ShapeFns where
  collides : OctVox → Bool
  will_be_full : Operation → OctVox → Bool
  will_be_empty : Operation → OctVox → Bool

def aabb_shape (s : AABB) : ShapeFns :=
  { collides := fun o => s.collides (AABB.from_oct_vox o)
  , will_be_full := fun op o => s.will_be_full op (AABB.from_oct_vox o)
  , will_be_empty := fun op o => s.will_be_empty op (AABB.from_oct_vox o) }

/-- inner::interior_from: header is voxel_count << 8 or'ed with the child
mask; None when the mask (the header's low byte) is empty. -/
def interior_from (children : List (Option Nat)) (voxel_count : Nat) : Option (List Nat) :=
  let hdr := children.enum.foldl
    (fun h ci => match ci.2 with
      | some _ => h ||| (1 <<< ci.1)
      | none => h)
    (voxel_count <<< 8)
  if hdr % 256 ≠ 0 then some (hdr :: children.filterMap id) else none

structure NodeState where
  level : Nat
  vptr : Option Nat
  path : V3

/-- edit_leaf's inner edit_part for one upper octant: walks the 8 unit voxels,
linking or unlinking the colliding bits of the word. -/
def edit_leaf_word (shape : ShapeFns) (op : Operation) (path : V3) (upper_idx w : Nat) : Nat :=
  let path1 := descend path upper_idx
  let base_idx := upper_idx % 4 * 8
  (List.range 8).foldl
    (fun w bottom_idx =>
      let path2 := descend path1 bottom_idx
      let child_bit := 1 <<< (base_idx + bottom_idx)
      if shape.collides (OctVox.new SUPPORTED_LEVELS path2) then
        match op with
        | .link => w ||| child_bit
        | .unlink => w &&& (SENT ^^^ child_bit)
      else w)
    w

/-- The edited 64-bit mask of edit_leaf: uppers 0..4 act on word 0, uppers
4..8 on word 1. -/
def edit_leaf_mask (shape : ShapeFns) (op : Operation) (path : V3) (l : List Nat) : List Nat :=
  [ (List.range 4).foldl (fun w u => edit_leaf_word shape op path u w) (l.getD 0 0)
  , ((List.range 4).map (· + 4)).foldl (fun w u => edit_leaf_word shape op path u w) (l.getD 1 0) ]

/-- The initial mask read of edit_leaf: the stored two words when a pointer is
present, the empty mask otherwise. -/
def leaf_or_empty (t : Table) (vptr : Option Nat) : Res (List Nat) :=
  match vptr with
  | some v =>
    match pool_idx t v with
    | .ok pi => .ok [t.pool pi, t.pool (pi + 1)]
    | .err e => .err e
    | .fatal => .fatal
  | none => .ok [0, 0]

/-- SharedHashDAG::edit_leaf. -/
def edit_leaf (t : Table) (op : Operation) (shape : ShapeFns) (vptr : Option Nat)
    (path : V3) : Res (Option Nat × Nat) × Table :=
  match leaf_or_empty t vptr with
  | .err e => (.err e, t)
  | .fatal => (.fatal, t)
  | .ok init_leaf =>
    let leaf := edit_leaf_mask shape op path init_leaf
    if leaf = [0, 0] then (.ok (none, 0), t)
    else if leaf = init_leaf then
      match vptr with
      | some v => (.ok (some v, count_leaves leaf), t)
      | none => (.fatal, t)
    else
      match find_or_add_leaf t (.pass leaf) with
      | (.ok v, t1) => (.ok (some v, count_leaves leaf), t1)
      | (.err e, t1) => (.err e, t1)
      | (.fatal, t1) => (.fatal, t1)

/-- The child loop of edit_interior: builds the 8 child NodeStates (consuming
the interior's child words in mask order), runs next on each, collects the
result pointers and voxel counts and ors the invalidation flags. -/
def edit_interior_loop (next : Table → NodeState → Res (Bool × Option Nat × Nat) × Table)
    (level : Nat) (path : V3) (child_mask : Nat) :
    Table → List Nat → Nat → Nat → Res (Bool × List (Option Nat) × Nat) × Table :=
  fun t rest child count =>
    match count with
    | 0 => (.ok (false, [], 0), t)
    | count + 1 =>
      let child_exists := child_mask &&& (1 <<< child) ≠ 0
      let vp := if child_exists then rest.head? else none
      let rest' := if child_exists then rest.tail else rest
      match next t { level := level + 1, vptr := vp, path := descend path child } with
      | (.ok (inv, evp, cnt), t1) =>
        match edit_interior_loop next level path child_mask t1 rest' (child + 1) count with
        | (.ok (inv', kids, cnt'), t2) => (.ok (inv || inv', evp :: kids, cnt + cnt'), t2)
        | (.err e, t2) => (.err e, t2)
        | (.fatal, t2) => (.fatal, t2)
      | (.err e, t1) => (.err e, t1)
      | (.fatal, t1) => (.fatal, t1)

/-- SharedHashDAG::edit_interior. -/
def edit_interior (t : Table) (ns : NodeState)
    (next : Table → NodeState → Res (Bool × Option Nat × Nat) × Table) :
    Res (Option Nat × Nat) × Table :=
  let int_res : Res (List Nat) :=
    match ns.vptr with
    | some v => interior_at t v
    | none => .ok [0]
  match int_res with
  | .err e => (.err e, t)
  | .fatal => (.fatal, t)
  | .ok interior =>
    let child_mask := interior.headD 0 % 256
    match edit_interior_loop next ns.level ns.path child_mask t (interior.drop 1) 0 8 with
    | (.err e, t1) => (.err e, t1)
    | (.fatal, t1) => (.fatal, t1)
    | (.ok (is_invalidated, children, voxel_count), t1) =>
      if !is_invalidated then (.ok (ns.vptr, voxel_count), t1)
      else
        match interior_from children voxel_count with
        | some node =>
          match find_or_add_interior t1 ns.level (.pass node) with
          | (.ok v, t2) => (.ok (some v, voxel_count), t2)
          | (.err e, t2) => (.err e, t2)
          | (.fatal, t2) => (.fatal, t2)
        | none => (.ok (none, 0), t1)

/-- SharedHashDAG::edit_deep (below COLOR_TREE_LEVELS in depth, i.e. at
levels ≥ COLOR_TREE_LEVELS). The fuel argument bounds the recursion depth;
the top-level entry supplies SUPPORTED_LEVELS, which the descent (one level
per call, stopping at LEAF_LEVEL) never exhausts. -/
def edit_deep (fuel : Nat) (op : Operation) (shape : ShapeFns) (t : Table)
    (ns : NodeState) : Res (Option Nat × Nat) × Table :=
  match fuel with
  | 0 => (.fatal, t)
  | fuel + 1 =>
    let edit_oct := OctVox.new ns.level ns.path
    if !shape.collides edit_oct then
      match ns.vptr with
      | some vptr =>
        if ns.level = LEAF_LEVEL then
          match leaf_at t vptr with
          | .ok l => (.ok (some vptr, count_leaves l), t)
          | .err e => (.err e, t)
          | .fatal => (.fatal, t)
        else
          match get_word t vptr with
          | .ok w => (.ok (some vptr, w >>> 8), t)
          | .err e => (.err e, t)
          | .fatal => (.fatal, t)
      | none => (.ok (none, 0), t)
    else if shape.will_be_empty op edit_oct then (.ok (none, 0), t)
    else if shape.will_be_full op edit_oct then
      match full_node_ptr t ns.level with
      | .ok p => (.ok (some p, 1 <<< (3 * (SUPPORTED_LEVELS - ns.level))), t)
      | .err e => (.err e, t)
      | .fatal => (.fatal, t)
    else if ns.level = LEAF_LEVEL then edit_leaf t op shape ns.vptr ns.path
    else
      edit_interior t ns (fun t' ns' =>
        match edit_deep fuel op shape t' ns' with
        | (.ok (evp, c), t1) => (.ok (decide (evp ≠ ns'.vptr), evp, c), t1)
        | (.err e, t1) => (.err e, t1)
        | (.fatal, t1) => (.fatal, t1))

/-- SharedHashDAG::edit (the shallow pass above the color-tree range). -/
def edit_shallow (fuel : Nat) (op : Operation) (shape : ShapeFns) (t : Table)
    (ns : NodeState) : Res (Option Nat) × Table :=
  match fuel with
  | 0 => (.fatal, t)
  | fuel + 1 =>
    match edit_interior t ns (fun t' ns' =>
      if !shape.collides (OctVox.new ns'.level ns'.path) then (.ok (false, ns'.vptr, 0), t')
      else if ns'.level = COLOR_TREE_LEVELS then
        match edit_deep fuel op shape t' ns' with
        | (.ok (evp, _c), t1) => (.ok (decide (ns'.vptr ≠ evp), evp, 0), t1)
        | (.err e, t1) => (.err e, t1)
        | (.fatal, t1) => (.fatal, t1)
      else
        match edit_shallow fuel op shape t' ns' with
        | (.ok evp, t1) => (.ok (decide (ns'.vptr ≠ evp), evp, 0), t1)
        | (.err e, t1) => (.err e, t1)
        | (.fatal, t1) => (.fatal, t1)) with
    | (.ok (evp, _count), t1) => (.ok evp, t1)
    | (.err e, t1) => (.err e, t1)
    | (.fatal, t1) => (.fatal, t1)

/-- Editor::edit: dispatches on the root's level and maps a None result to
the empty-DAG error. -/
def edit (t : Table) (vptr : Nat) (op : Operation) (shape : ShapeFns) : Res Nat × Table :=
  let root : NodeState := { level := vptr_to_lvl vptr, vptr := some vptr, path := ⟨0, 0, 0⟩ }
  let r : Res (Option Nat) × Table :=
    if COLOR_TREE_LEVELS ≤ root.level then
      match edit_deep SUPPORTED_LEVELS op shape t root with
      | (.ok (evp, _c), t1) => (.ok evp, t1)
      | (.err e, t1) => (.err e, t1)
      | (.fatal, t1) => (.fatal, t1)
    else edit_shallow SUPPORTED_LEVELS op shape t root
  match r with
  | (.ok (some v), t1) => (.ok v, t1)
  | (.ok none, t1) => (.err "An empty DAG is invalid state.", t1)
  | (.err e, t1) => (.err e, t1)
  | (.fatal, t1) => (.fatal, t1)

/-! ## Properties of the staging range lists -/

/-- The word w lies in the destination range of some emitted triple. -/
def ranges_cover (rs : List (Nat × Nat × Nat)) (w : Nat) : Prop :=
  ∃ r ∈ rs, r.2.1 ≤ w ∧ w < r.2.1 + r.2.2

/-- The word w lies in the region of some set mask bit (bit i owns the words
bit_len * i .. bit_len * (i + 1)). -/
def bits_cover (bits : List Bool) (bit_len w : Nat) : Prop :=
  ∃ i, i < bits.length ∧ bits.getD i false = true ∧ bit_len * i ≤ w ∧ w < bit_len * (i + 1)

/-- Destination ranges in strictly increasing order with at least one clear
bit between them (so consecutive set bits are always merged). -/
def dst_gap (bit_len : Nat) (a b : Nat × Nat × Nat) : Prop :=
  a.2.1 + a.2.2 + bit_len ≤ b.2.1

/-- Invariant carried through the staging bit loop: the cursor position
matches the number of processed bits, emitted ranges are nonempty, lie (with
a one-bit gap) below the destination cursor, are pairwise gap-separated, and
together with the pending run cover exactly the set bits processed so far. -/
structure StageInv (B : Nat) (bits : List Bool) (st : StageSt) : Prop where
  hdst : st.dst + st.len = B * bits.length
  hout_pos : ∀ r ∈ st.out, 0 < r.2.2
  hout_below : ∀ r ∈ st.out, r.2.1 + r.2.2 + B ≤ st.dst
  hpair : st.out.Pairwise (dst_gap B)
  hcover : ∀ w,
    (ranges_cover st.out w ∨ (st.dst ≤ w ∧ w < st.dst + st.len)) ↔ bits_cover bits B w

/-! ## Concrete tables for the counterexamples and witnesses

All tables below are reachable through the public mutation API; the builder
definitions record the exact call sequences, and the literal tables are their
evaluated results (transcribed so that kernel checking stays cheap; the
equality can be confirmed by evaluating the builders). -/

instance : Monad Res where
  pure := .ok
  bind := fun r f =>
    match r with
    | .ok a => f a
    | .err e => .err e
    | .fatal => .fatal

/-- One find_or_add-free insertion step (HashDAGMut::add_leaf), demanding
success. -/
def ins_leaf (n : List Nat) (h : Nat) (t : Table) : Res Table :=
  match add_leaf t (.strict n) h with
  | (.ok _, t1) => .ok t1
  | (.err e, _) => .err e
  | (.fatal, _) => .fatal

/-- Builder of the table used against claim C1: a blank 65536-word pool;
add_full_leaf (bucket 24353 of level 15, physical page 0); 256 distinct
filler leaves [2k+2, 0] inserted through the public add_leaf with the
supplied hash 885181228 = hash_leaf [1, 0], filling leaf bucket 52012's
first page (physical page 1) to exactly 512 words; then one leaf [7, 7]
into bucket 52013 (physical page 2), so the next page of bucket 52012 will
not be physically adjacent to its first. -/
def c1_build : Res Table := do
  let t0 ← blank 65536
  let t1 ← add_full_leaf t0
  let t2 ← (List.range 256).foldlM (fun t k => ins_leaf [2 * k + 2, 0] 885181228 t) t1
  ins_leaf [7, 7] 885181229 t2

/-- The value of c1_build, transcribed literally. -/
def c1_table : Table :=
  { full_node_pointers := fun l => if l = 15 then 1719799808 else SENT
  , lut := fun p =>
      if p = 3358984 then 0 else if p = 3580256 then 512 else if p = 3580264 then 1024
      else SENT
  , hi := 3
  , bucket_len := fun i =>
      if i = 426785 then 2 else if i = 454444 then 512 else if i = 454445 then 2 else 0
  , pool := fun i =>
      if i < 2 then SENT
      else if 512 ≤ i ∧ i < 1024 then (if (i - 512) % 2 = 0 then i - 510 else 0)
      else if i = 1024 ∨ i = 1025 then 7
      else 0
  , pool_len := 65536
  , pool_mask := fun b => if b = 0 then 7 else 0
  , page_table_mask := 64 }

/-- Builder of the table used against claim C8: as for C1 but tuned for the
leaf [3, 4096]: full leaf; 256 fillers [2k+2, 9] with hash 4040684393 =
hash_leaf [3, 4096] filling leaf bucket 62313's first page; a leaf [3, 4096]
into bucket 62314 (physical page 2, the page that physically follows bucket
62313's first page); a leaf [4, 4096] extending bucket 62313 onto its second
page (physical page 3); and the root leaf [2, 4096] into bucket 62315. -/
def c8_build : Res Table := do
  let t0 ← blank 65536
  let t1 ← add_full_leaf t0
  let t2 ← (List.range 256).foldlM (fun t k => ins_leaf [2 * k + 2, 9] 4040684393 t) t1
  let t3 ← ins_leaf [3, 4096] 4040684394 t2
  let t4 ← ins_leaf [4, 4096] 4040684393 t3
  ins_leaf [2, 4096] 4040684395 t4

/-- The value of c8_build, transcribed literally. -/
def c8_table : Table :=
  { full_node_pointers := fun l => if l = 15 then 1719799808 else SENT
  , lut := fun p =>
      if p = 3358984 then 0 else if p = 3662664 then 512 else if p = 3662665 then 1536
      else if p = 3662672 then 1024 else if p = 3662680 then 2048 else SENT
  , hi := 5
  , bucket_len := fun i =>
      if i = 426785 then 2 else if i = 464745 then 514 else if i = 464746 then 2
      else if i = 464747 then 2 else 0
  , pool := fun i =>
      if i < 2 then SENT
      else if 512 ≤ i ∧ i < 1024 then (if (i - 512) % 2 = 0 then i - 510 else 9)
      else if i = 1024 then 3 else if i = 1025 then 4096
      else if i = 1536 then 4 else if i = 1537 then 4096
      else if i = 2048 then 2 else if i = 2049 then 4096
      else 0
  , pool_len := 65536
  , pool_mask := fun b => if b = 0 then 31 else 0
  , page_table_mask := 64 }

/-- The box [0,1]^3: its only colliding unit voxel is (0,0,0). -/
def c8_shape : ShapeFns := aabb_shape { min := ⟨0, 0, 0⟩, max := ⟨1, 1, 1⟩ }

/-- Witness table holding a single one-bit leaf [1, 0] at physical words 0..1,
reachable as virtual pointer 0 (page 0 allocated at physical 0). -/
def leaf_child_table : Table :=
  { full_node_pointers := fun _ => SENT
  , lut := fun p => if p = 0 then 0 else SENT
  , hi := 1
  , bucket_len := fun _ => 0
  , pool := fun i => if i = 0 then 1 else 0
  , pool_len := 65536
  , pool_mask := fun _ => 0
  , page_table_mask := 0 }

/-- A completely blank table (HashTable::blank of one 128-page block): all
full-node pointers and LUT entries still hold the sentinel. -/
def blank_table : Table :=
  { full_node_pointers := fun _ => SENT
  , lut := fun _ => SENT
  , hi := 0
  , bucket_len := fun _ => 0
  , pool := fun _ => 0
  , pool_len := 65536
  , pool_mask := fun _ => 0
  , page_table_mask := 0 }

/-- Witness table for the bucket-overflow error paths: leaf bucket 0 of level
15 (flat index 402432) holds 4094 of its 4096 words, the page of the next
free slot (virtual page 3164167) allocated at physical 0; interior bucket 0
of level 0 (flat index 0) holds 1022 of its 1024 words, the page of the next
free slot (virtual page 1) allocated at physical 512. -/
def overflow_table : Table :=
  { full_node_pointers := fun _ => SENT
  , lut := fun p => if p = 3164167 then 0 else if p = 1 then 512 else SENT
  , hi := 2
  , bucket_len := fun i => if i = 402432 then 4094 else if i = 0 then 1022 else 0
  , pool := fun _ => 0
  , pool_len := 65536
  , pool_mask := fun _ => 0
  , page_table_mask := 0 }

/-! # Theorems -/

/-! ## Constant evaluations used throughout -/

theorem PAGE_LEN_eq : PAGE_LEN = 512 := rfl
theorem HI_LEVELS_eq : HI_LEVELS = 9 := rfl
theorem SUPPORTED_LEVELS_eq : SUPPORTED_LEVELS = 17 := rfl
theorem LEAF_LEVEL_eq : LEAF_LEVEL = 15 := rfl
theorem COLOR_TREE_LEVELS_eq : COLOR_TREE_LEVELS = 10 := rfl
theorem HI_BUCKET_LEN_eq : HI_BUCKET_LEN = 1024 := rfl
theorem LO_BUCKET_LEN_eq : LO_BUCKET_LEN = 4096 := rfl
theorem BUCKETS_PER_HI_LEVEL_eq : BUCKETS_PER_HI_LEVEL = 1024 := rfl
theorem BUCKETS_PER_LO_LEVEL_eq : BUCKETS_PER_LO_LEVEL = 65536 := rfl
theorem TOTAL_HI_BUCKETS_eq : TOTAL_HI_BUCKETS = 9216 := rfl
theorem TOTAL_PAGES_eq : TOTAL_PAGES = 4212736 := rfl
theorem TOTAL_VIRT_SPACE_eq : TOTAL_VIRT_SPACE = 2156920832 := rfl
theorem HI_eq : HI = 9437184 := rfl
theorem SENT_eq : SENT = 4294967295 := rfl
theorem LUT_MASK_BIT_LEN_eq : LUT_MASK_BIT_LEN = 526592 := rfl
theorem POOL_MASK_BIT_LEN_eq : POOL_MASK_BIT_LEN = 512 := rfl

theorem data_pass (ws : List Nat) : (VNode.pass ws).data = ws := rfl
theorem data_strict (ws : List Nat) : (VNode.strict ws).data = ws := rfl

/-! ## C3: valid (level, bucket, offset) triples round-trip through
new_vptr and vptr_to_lvl -/

/-- C3: for every valid triple (L, b, o) — L < SUPPORTED_LEVELS, b below that
level's bucket count, o below that level's bucket length — new_vptr L b o
succeeds, and vptr_to_lvl applied to its result recovers L. -/
theorem c3_new_vptr_level_roundtrip (L b o : Nat) (hL : L < SUPPORTED_LEVELS)
    (hb : b < buckets_per_level L) (ho : o < new_bucket_len L) :
    ∃ v, new_vptr L b o = .ok v ∧ vptr_to_lvl v = L := by
  refine ⟨raw_vptr L b o, ?_, ?_⟩ <;>
  · simp only [new_vptr, raw_vptr, new_bucket_len_idx, buckets_per_level, new_bucket_len,
      vptr_to_lvl, SUPPORTED_LEVELS_eq, HI_LEVELS_eq, HI_BUCKET_LEN_eq, LO_BUCKET_LEN_eq,
      BUCKETS_PER_HI_LEVEL_eq, BUCKETS_PER_LO_LEVEL_eq, TOTAL_HI_BUCKETS_eq,
      TOTAL_VIRT_SPACE_eq, HI_eq] at hL hb ho ⊢
    by_cases h9 : L < 9 <;> simp only [h9, if_true, if_false, reduceIte] at hb ho ⊢ <;>
      split_ifs <;> first | rfl | omega

/-- Witness for C3 at the concrete triple (12, 77, 99). -/
theorem c3_witness :
    ∃ v, new_vptr 12 77 99 = .ok v ∧ vptr_to_lvl v = 12 :=
  c3_new_vptr_level_roundtrip 12 77 99 (by decide) (by decide) (by decide)

/-! ## C4: the out-of-bounds conditions of new_vptr -/

/-- C4 counterexample: at hi level 0 the bucket 2000 exceeds the level's
bucket count (1024), yet new_vptr succeeds instead of returning the
OutOfBounds error the claim requires — the hi branch never checks the
bucket. -/
theorem c4_counterexample :
    buckets_per_level 0 < 2000 ∧ new_vptr 0 2000 0 = .ok 2048000 := by decide

/-- C4 amended: new_vptr returns an error whenever the offset reaches the
level's bucket length, or — at lo levels only — the bucket reaches the lo
bucket count, or the computed raw vptr (the wrapped u32 index) would reach
TOTAL_VIRT_SPACE; the bucket bound is not itself checked at hi levels, and
a bucket large enough to wrap the u32 index past 2 ^ 32 can even land the
index back in range. -/
theorem c4_new_vptr_out_of_bounds (L b o : Nat) (hL : L < SUPPORTED_LEVELS)
    (h : new_bucket_len L ≤ o ∨ (HI_LEVELS ≤ L ∧ BUCKETS_PER_LO_LEVEL ≤ b) ∨
      TOTAL_VIRT_SPACE ≤ raw_vptr L b o) :
    ∃ e, new_vptr L b o = .err e := by
  simp only [new_vptr, raw_vptr, new_bucket_len_idx, new_bucket_len,
    SUPPORTED_LEVELS_eq, HI_LEVELS_eq, HI_BUCKET_LEN_eq, LO_BUCKET_LEN_eq,
    BUCKETS_PER_HI_LEVEL_eq, BUCKETS_PER_LO_LEVEL_eq, TOTAL_HI_BUCKETS_eq,
    TOTAL_VIRT_SPACE_eq, HI_eq] at hL h ⊢
  by_cases h9 : L < 9 <;> simp only [h9, if_true, if_false, reduceIte] at h ⊢ <;>
    split_ifs <;> first | exact ⟨_, rfl⟩ | (exfalso; omega)

/-- Witness for C4's amended statement at (15, 0, 4096): the offset reaches
the lo bucket length 4096. -/
theorem c4_witness : ∃ e, new_vptr 15 0 4096 = .err e :=
  c4_new_vptr_out_of_bounds 15 0 4096 (by decide) (Or.inl (by decide))

/-! ## C2: what interior validation actually checks -/

/-- C2 counterexample: the Strict interior node [3, 5, 6, 7] (header mask 3,
popcount 2, but 3 children) violates the claim's condition
popcount(header low 8) + 1 = len, yet validated_as_interior accepts it (at a
level below the color-tree range), so insertion would not reject it with
InvalidNode. -/
theorem c2_counterexample :
    popcount8 3 + 1 ≠ ([3, 5, 6, 7] : List Nat).length ∧
    1 < ([3, 5, 6, 7] : List Nat).length ∧ ([3, 5, 6, 7] : List Nat).length ≤ 9 ∧
    validated_as_interior blank_table (.strict [3, 5, 6, 7]) (LevelInfo.new 0) =
      .ok (.pass [3, 5, 6, 7]) := by decide

/-- C2 amended: for a nonempty Strict interior node whose child-count sum
computes to c (the color-tree sum when the level is in the color-tree range,
0 otherwise), validation accepts exactly when the length is neither 1 nor
greater than 9 and the header's high 24 bits equal c; the popcount-versus-
length correspondence is never checked. -/
theorem c2_validate_interior_characterization (t : Table) (info : LevelInfo)
    (ws : List Nat) (c : Nat) (hlen : 1 ≤ ws.length)
    (hsum : child_count_sum t info ws = .ok c) :
    validate_interior t (.strict ws) info = .ok .valid ↔
      (ws.length ≠ 1 ∧ ws.length ≤ 9 ∧ ws.headD 0 >>> 8 = c) := by
  cases ws with
  | nil => simp at hlen
  | cons w rest =>
    simp only [validate_interior, hsum, List.headD_cons]
    split_ifs with hl hlt heq
    · constructor
      · intro h; exact absurd h (by simp)
      · rintro ⟨h1, h2, _⟩; exact absurd hl (by omega)
    · constructor
      · intro h; exact absurd h (by simp)
      · rintro ⟨_, _, h3⟩; omega
    · simp only [true_iff]
      refine ⟨by omega, by omega, heq⟩
    · constructor
      · intro h; exact absurd h (by simp)
      · rintro ⟨_, _, h3⟩; omega

/-- Witness for C2's amended statement: the last-interior color-level node
[257, 0] (voxel count 1, one leaf child with a single bit) over a table whose
virtual pointer 0 resolves to the leaf [1, 0]. -/
theorem c2_witness :
    validate_interior leaf_child_table (.strict [257, 0]) (LevelInfo.new 14) = .ok .valid :=
  (c2_validate_interior_characterization leaf_child_table (LevelInfo.new 14) [257, 0] 1
    (by decide) (by decide)).mpr (by decide)

/-! ## C10: unpopulated full-node pointers make find_or_add panic -/

/-- C10: on any table whose full-node pointer for the target level still holds
the blank sentinel (bootstrap never ran), find_or_add_leaf and
find_or_add_interior panic via the unwrap on the full-node fast-path read
(the sentinel's page is past the page table) instead of returning an error;
populated full-node pointers are a precondition for these operations to be
panic-free. -/
theorem c10_find_or_add_panics_without_full_nodes :
    (∀ (t : Table) (ws : List Nat), t.full_node_pointers LEAF_LEVEL = SENT →
      (find_or_add_leaf t (.pass ws)).1 = .fatal) ∧
    (∀ (t : Table) (level : Nat) (ws : List Nat), level ≤ LEAF_LEVEL →
      t.full_node_pointers level = SENT →
      (find_or_add_interior t level (.pass ws)).1 = .fatal) := by
  constructor
  · intro t ws h
    simp only [LEAF_LEVEL_eq, SENT_eq] at h
    simp only [find_or_add_leaf, validated_as_leaf, validate_leaf, VNode.data,
      full_node_ptr, leaf_at, pool_idx, is_allocated, LEAF_LEVEL_eq, SENT_eq,
      PAGE_LEN_eq, TOTAL_PAGES_eq, h]
    norm_num
  · intro t level ws hlev h
    simp only [LEAF_LEVEL_eq] at hlev
    simp only [SENT_eq] at h
    simp only [find_or_add_interior, validated_as_interior, validate_interior,
      VNode.data, full_node_ptr, interior_at, pool_idx, is_allocated,
      LEAF_LEVEL_eq, SENT_eq, PAGE_LEN_eq, TOTAL_PAGES_eq]
    rw [if_pos (by omega : level < 15 + 1), h]
    norm_num

/-- Witness for C10 on the blank table. -/
theorem c10_witness :
    (find_or_add_leaf blank_table (.pass [1, 0])).1 = .fatal ∧
    (find_or_add_interior blank_table 0 (.pass [3, 7, 9])).1 = .fatal :=
  ⟨c10_find_or_add_panics_without_full_nodes.1 blank_table [1, 0] rfl,
   c10_find_or_add_panics_without_full_nodes.2 blank_table 0 [3, 7, 9] (by decide) rfl⟩

/-! ## C5: add_interior never straddles a page -/

/-- A successful new_vptr preserves the bucket offset modulo the page length:
every bucket base is page-aligned. -/
theorem new_vptr_mod_page (L b o v : Nat) (h : new_vptr L b o = .ok v) :
    v % PAGE_LEN = o % PAGE_LEN := by
  simp only [new_vptr, new_bucket_len_idx, HI_LEVELS_eq, HI_BUCKET_LEN_eq,
    LO_BUCKET_LEN_eq, BUCKETS_PER_HI_LEVEL_eq, BUCKETS_PER_LO_LEVEL_eq,
    TOTAL_HI_BUCKETS_eq, TOTAL_VIRT_SPACE_eq, HI_eq, PAGE_LEN_eq] at h ⊢
  split_ifs at h <;> simp only [Res.ok.injEq] at h <;> omega

/-- A successful validation returns the Pass wrapper around the input's
words. -/
theorem validated_as_interior_ok (t : Table) (node n1 : VNode) (info : LevelInfo)
    (h : validated_as_interior t node info = .ok n1) : n1 = .pass node.data := by
  unfold validated_as_interior at h
  cases hv : validate_interior t node info with
  | ok val =>
    rw [hv] at h
    cases val with
    | valid => simpa using h.symm
    | invalid m => simp at h
  | err e => rw [hv] at h; simp at h
  | fatal => rw [hv] at h; simp at h

/-- C5: every successful add_interior places the node within one page — the
returned vptr's in-page offset plus the node length never exceeds PAGE_LEN —
and the bucket length ends at (old length, advanced to the page boundary when
the node would not fit in the current page's remaining words) plus the node
length, so the page remainder is wasted exactly in the overflow case. -/
theorem c5_add_interior_within_page (t : Table) (level : Nat) (node : VNode)
    (hash v : Nat) :
    (add_interior t level node hash).1 = .ok v →
    node.data.length ≤ PAGE_LEN →
    v % PAGE_LEN + node.data.length ≤ PAGE_LEN ∧
    (add_interior t level node hash).2.bucket_len
        (new_bucket_len_idx level (bucket_from_hash level hash)) =
      (if PAGE_LEN - t.bucket_len (new_bucket_len_idx level (bucket_from_hash level hash))
            % PAGE_LEN < node.data.length
       then t.bucket_len (new_bucket_len_idx level (bucket_from_hash level hash)) +
         (PAGE_LEN - t.bucket_len (new_bucket_len_idx level (bucket_from_hash level hash))
            % PAGE_LEN)
       else t.bucket_len (new_bucket_len_idx level (bucket_from_hash level hash)))
        + node.data.length := by
  intro h hlen
  rcases hres : add_interior t level node hash with ⟨r1, t2⟩
  rw [hres] at h
  simp only at h ⊢
  simp only [add_interior] at hres
  split at hres
  · cases hres; simp at h
  · cases hres; simp at h
  next n1 heq =>
    obtain rfl := validated_as_interior_ok t node n1 _ heq
    simp only [data_pass] at hres
    split at hres
    · cases hres; simp at h
    · cases hres; simp at h
    next vptr hvp =>
      have hmod := new_vptr_mod_page _ _ _ _ hvp
      split at hres
      next e t1 halloc => cases hres; simp at h
      next t1 halloc => cases hres; simp at h
      next u t1 halloc =>
        split at hres
        · cases hres; simp at h
        · cases hres; simp at h
        next pi hpi =>
          split_ifs at hres with hov hcap hcap
          · split at hres
            next a t4 hreg =>
              cases hres
              obtain rfl : vptr = v := by simpa using h
              simp only [register] at hreg
              split_ifs at hreg with hspan
              · simp at hreg
              · obtain ⟨-, rfl⟩ := Prod.mk.injEq .. ▸ hreg
                simp only [fun_update, if_pos rfl, if_pos hov]
                refine ⟨?_, rfl⟩
                rw [if_pos hov] at hmod
                simp only [PAGE_LEN_eq] at hmod hlen ⊢
                omega
            next e t4 hreg => cases hres; simp at h
            next t4 hreg => cases hres; simp at h
          · cases hres; simp at h
          · split at hres
            next a t4 hreg =>
              cases hres
              obtain rfl : vptr = v := by simpa using h
              simp only [register] at hreg
              split_ifs at hreg with hspan
              · simp at hreg
              · obtain ⟨-, rfl⟩ := Prod.mk.injEq .. ▸ hreg
                simp only [fun_update, if_pos rfl, if_neg hov]
                refine ⟨?_, rfl⟩
                rw [if_neg hov] at hmod
                simp only [PAGE_LEN_eq] at hmod hlen hov ⊢
                omega
            next e t4 hreg => cases hres; simp at h
            next t4 hreg => cases hres; simp at h
          · cases hres; simp at h

/-- Witness for C5: inserting the 3-word interior [3, 5, 6] (Pass) into the
blank table at level 0 with hash 0 succeeds at vptr 0 and stays within the
page. -/
theorem c5_witness :
    0 % PAGE_LEN + ([3, 5, 6] : List Nat).length ≤ PAGE_LEN ∧
    (add_interior blank_table 0 (.pass [3, 5, 6]) 0).2.bucket_len 0 = 3 :=
  c5_add_interior_within_page blank_table 0 (.pass [3, 5, 6]) 0 0 (by decide) (by decide)

/-! ## C9: the overflow error path mutates before returning -/

theorem fun_write_lt (ws : List Nat) (f : Nat → Nat) (off j : Nat) (hj : j < off) :
    fun_write f off ws j = f j := by
  induction ws generalizing f off with
  | nil => rfl
  | cons w rest ih =>
    simp only [fun_write]
    rw [ih _ (off + 1) (by omega)]
    simp only [fun_update]
    rw [if_neg (by omega)]

theorem fun_write_getD (ws : List Nat) (f : Nat → Nat) (off k : Nat) (hk : k < ws.length) :
    fun_write f off ws (off + k) = ws.getD k 0 := by
  induction ws generalizing f off k with
  | nil => simp at hk
  | cons w rest ih =>
    cases k with
    | zero =>
      simp only [fun_write, List.getD_cons_zero, Nat.add_zero]
      rw [fun_write_lt rest _ (off + 1) off (by omega)]
      simp [fun_update]
    | succ k =>
      simp only [fun_write]
      have : off + (k + 1) = (off + 1) + k := by omega
      rw [this, ih _ (off + 1) k (by simpa using hk)]
      rfl

/-- C9: when add_leaf or add_interior takes the bucket-overflow error path
(the new bucket length would reach the bucket capacity; here on the
no-allocation branch, where the current page already holds the slot), the
node's words have already been written into the pool at the resolved offset
and the bucket-length counter has already been advanced when the error is
returned; nothing is rolled back. -/
theorem c9_add_overflow_mutates_before_error :
    (∀ (t : Table) (ws : List Nat) (hash pi : Nat),
      validated_as_leaf (.strict ws) = .ok (.pass ws) →
      t.bucket_len (new_bucket_len_idx LEAF_LEVEL (bucket_from_hash LEAF_LEVEL hash))
          % PAGE_LEN ≠ 0 →
      new_vptr LEAF_LEVEL (bucket_from_hash LEAF_LEVEL hash)
          (t.bucket_len (new_bucket_len_idx LEAF_LEVEL (bucket_from_hash LEAF_LEVEL hash))) =
        .ok (raw_vptr LEAF_LEVEL (bucket_from_hash LEAF_LEVEL hash)
          (t.bucket_len (new_bucket_len_idx LEAF_LEVEL (bucket_from_hash LEAF_LEVEL hash)))) →
      pool_idx t (raw_vptr LEAF_LEVEL (bucket_from_hash LEAF_LEVEL hash)
          (t.bucket_len (new_bucket_len_idx LEAF_LEVEL (bucket_from_hash LEAF_LEVEL hash)))) =
        .ok pi →
      new_bucket_len LEAF_LEVEL ≤
        t.bucket_len (new_bucket_len_idx LEAF_LEVEL (bucket_from_hash LEAF_LEVEL hash)) + 2 →
      (add_leaf t (.strict ws) hash).1 = .err "Overflowing bucket on leaf level!" ∧
      (add_leaf t (.strict ws) hash).2.bucket_len
          (new_bucket_len_idx LEAF_LEVEL (bucket_from_hash LEAF_LEVEL hash)) =
        t.bucket_len (new_bucket_len_idx LEAF_LEVEL (bucket_from_hash LEAF_LEVEL hash)) + 2 ∧
      ∀ k, k < ws.length → (add_leaf t (.strict ws) hash).2.pool (pi + k) = ws.getD k 0) ∧
    (∀ (t : Table) (level : Nat) (ws : List Nat) (hash pi : Nat),
      validated_as_interior t (.strict ws) (LevelInfo.new level) = .ok (.pass ws) →
      PAGE_LEN ≠ PAGE_LEN -
          t.bucket_len (new_bucket_len_idx level (bucket_from_hash level hash)) % PAGE_LEN →
      ¬(PAGE_LEN - t.bucket_len (new_bucket_len_idx level (bucket_from_hash level hash))
            % PAGE_LEN < ws.length) →
      new_vptr level (bucket_from_hash level hash)
          (t.bucket_len (new_bucket_len_idx level (bucket_from_hash level hash))) =
        .ok (raw_vptr level (bucket_from_hash level hash)
          (t.bucket_len (new_bucket_len_idx level (bucket_from_hash level hash)))) →
      pool_idx t (raw_vptr level (bucket_from_hash level hash)
          (t.bucket_len (new_bucket_len_idx level (bucket_from_hash level hash)))) = .ok pi →
      new_bucket_len level ≤
        t.bucket_len (new_bucket_len_idx level (bucket_from_hash level hash)) + ws.length →
      (add_interior t level (.strict ws) hash).1 =
        .err ("Overflowing bucket on level " ++ toString level ++ "!") ∧
      (add_interior t level (.strict ws) hash).2.bucket_len
          (new_bucket_len_idx level (bucket_from_hash level hash)) =
        t.bucket_len (new_bucket_len_idx level (bucket_from_hash level hash)) + ws.length ∧
      ∀ k, k < ws.length →
        (add_interior t level (.strict ws) hash).2.pool (pi + k) = ws.getD k 0) := by
  constructor
  · intro t ws hash pi hval hnz hvp hpi hcap
    rcases hres : add_leaf t (.strict ws) hash with ⟨r1, t2⟩
    simp only [add_leaf, hval, data_pass, hvp] at hres
    rw [if_neg hnz] at hres
    simp only [hpi] at hres
    rw [if_neg (by simp only [fun_update, if_true]; omega)] at hres
    cases hres
    refine ⟨rfl, by simp [fun_update], ?_⟩
    intro k hk
    simp only
    exact fun_write_getD ws t.pool pi k hk
  · intro t level ws hash pi hval hne hnov hvp hpi hcap
    rcases hres : add_interior t level (.strict ws) hash with ⟨r1, t2⟩
    simp only [add_interior, hval, data_pass] at hres
    rw [if_neg hnov] at hres
    simp only [hvp] at hres
    rw [if_neg (by push_neg; exact ⟨hne, by omega⟩)] at hres
    simp only [hpi] at hres
    rw [if_neg (by simp only [fun_update, if_true]; omega)] at hres
    cases hres
    refine ⟨rfl, by simp [fun_update], ?_⟩
    intro k hk
    simp only
    exact fun_write_getD ws t.pool pi k hk

/-- Witness for C9 on overflow_table: the leaf [1, 0] into the 4094-word leaf
bucket 0, and the interior [1, 5] at level 0 into the 1022-word bucket 0:
both error, both leave the advanced counter and the written words. -/
theorem c9_witness :
    ((add_leaf overflow_table (.strict [1, 0]) 0).1 =
        .err "Overflowing bucket on leaf level!" ∧
      (add_leaf overflow_table (.strict [1, 0]) 0).2.bucket_len 402432 = 4096 ∧
      ∀ k, k < ([1, 0] : List Nat).length →
        (add_leaf overflow_table (.strict [1, 0]) 0).2.pool (510 + k) =
          ([1, 0] : List Nat).getD k 0) ∧
    ((add_interior overflow_table 0 (.strict [1, 5]) 0).1 =
        .err ("Overflowing bucket on level " ++ toString 0 ++ "!") ∧
      (add_interior overflow_table 0 (.strict [1, 5]) 0).2.bucket_len 0 = 1024 ∧
      ∀ k, k < ([1, 5] : List Nat).length →
        (add_interior overflow_table 0 (.strict [1, 5]) 0).2.pool (1022 + k) =
          ([1, 5] : List Nat).getD k 0) :=
  ⟨c9_add_overflow_mutates_before_error.1 overflow_table [1, 0] 0 510 (by decide)
      (by decide) (by decide) (by decide) (by decide),
   c9_add_overflow_mutates_before_error.2 overflow_table 0 [1, 5] 0 1022 (by decide)
      (by decide) (by decide) (by decide) (by decide) (by decide)⟩

/-! ## C7: the edit_leaf post-condition mapping -/

/-- C7: for any operation, shape, optional leaf pointer and path whose initial
mask read succeeds, edit_leaf maps the edited 64-bit mask as the claim
states: all-zero → (None, 0); unchanged → the original pointer with the
mask's popcount; otherwise it dedup-inserts the new two-word leaf and
returns the resulting pointer with the mask's popcount. -/
theorem c7_edit_leaf_postcondition (t : Table) (op : Operation) (shape : ShapeFns)
    (vptr : Option Nat) (path : V3) (init_leaf : List Nat)
    (hinit : leaf_or_empty t vptr = .ok init_leaf) :
    (edit_leaf_mask shape op path init_leaf = [0, 0] →
      edit_leaf t op shape vptr path = (.ok (none, 0), t)) ∧
    (edit_leaf_mask shape op path init_leaf ≠ [0, 0] →
      edit_leaf_mask shape op path init_leaf = init_leaf →
      ∃ v, vptr = some v ∧
        edit_leaf t op shape vptr path =
          (.ok (some v, count_leaves (edit_leaf_mask shape op path init_leaf)), t)) ∧
    (edit_leaf_mask shape op path init_leaf ≠ [0, 0] →
      edit_leaf_mask shape op path init_leaf ≠ init_leaf →
      ∀ v t',
        find_or_add_leaf t (.pass (edit_leaf_mask shape op path init_leaf)) = (.ok v, t') →
        edit_leaf t op shape vptr path =
          (.ok (some v, count_leaves (edit_leaf_mask shape op path init_leaf)), t')) := by
  refine ⟨?_, ?_, ?_⟩
  · intro hz
    simp only [edit_leaf, hinit]
    rw [if_pos hz]
  · intro hnz heq
    cases vptr with
    | none =>
      obtain rfl : init_leaf = [0, 0] := by
        simp only [leaf_or_empty] at hinit
        simpa using hinit.symm
      exact absurd heq hnz
    | some v =>
      refine ⟨v, rfl, ?_⟩
      simp only [edit_leaf, hinit]
      rw [if_neg hnz, if_pos heq]
  · intro hnz hne v t' hfa
    simp only [edit_leaf, hinit]
    rw [if_neg hnz, if_neg hne]
    simp only [hfa]

/-- Witness for C7 on the blank table with an absent leaf and a shape whose
box [5,5]^3 collides with no unit voxel: the edited mask stays all-zero and
edit_leaf returns (None, 0). -/
theorem c7_witness :
    edit_leaf blank_table .link
        (aabb_shape { min := ⟨5, 5, 5⟩, max := ⟨5, 5, 5⟩ }) none ⟨0, 0, 0⟩ =
      (.ok (none, 0), blank_table) :=
  (c7_edit_leaf_postcondition blank_table .link
      (aabb_shape { min := ⟨5, 5, 5⟩, max := ⟨5, 5, 5⟩ }) none ⟨0, 0, 0⟩ [0, 0] rfl).1
    (by decide)

/-! ## C1: dedup idempotence fails once a bucket spans physically
non-adjacent pages

In c1_table, leaf bucket 52012 (the hash bucket of the leaf [1, 0]) holds
exactly 512 words in its first page (physical page 1), and physical page 2
belongs to another bucket. find_leaf resolves the bucket's base pool index
once and scans linearly, so after the first find_or_add_leaf [1, 0] appends
the leaf at bucket offset 512 (allocating the bucket's second page at
physical page 3), the second call's scan reads physical page 2 — the other
bucket's page — at offset 512, misses the stored leaf, and appends a
duplicate. -/

/-- C1: find_or_add_leaf is not idempotent on c1_table: the first call
returns vptr 1833091584 (bucket offset 512) and advances the bucket to 514
words; the repeated call with the same leaf returns the different vptr
1833091586 and advances the bucket-length counter to 516. -/
theorem c1_find_or_add_leaf_not_idempotent :
    (find_or_add_leaf c1_table (.strict [1, 0])).1 = .ok 1833091584 ∧
    bucket_len_at (find_or_add_leaf c1_table (.strict [1, 0])).2 LEAF_LEVEL 52012 = 514 ∧
    (find_or_add_leaf (find_or_add_leaf c1_table (.strict [1, 0])).2 (.strict [1, 0])).1 =
      .ok 1833091586 ∧
    bucket_len_at
        (find_or_add_leaf (find_or_add_leaf c1_table (.strict [1, 0])).2
          (.strict [1, 0])).2 LEAF_LEVEL 52012 = 516 := by
  constructor
  · decide
  constructor
  · decide
  constructor
  · decide
  · decide

/-! ## C8: edit idempotence fails through the same linear-scan defect

In c8_table, the leaf bucket 62313 (hash bucket of [3, 4096]) holds 514
words: 512 in physical page 1 and the leaf [4, 4096] at bucket offset 512 in
physical page 3; physical page 2 (the linear continuation of page 1) belongs
to bucket 62314 and begins with the planted leaf [3, 4096]. Linking the unit
voxel (0,0,0) into the root leaf [2, 4096] produces the mask [3, 4096];
find_leaf's linear scan finds the planted copy at bucket offset 512 and the
edit returns that vptr w, whose actual stored content is [4, 4096]. Editing
w with the same shape then edits [4, 4096] into [5, 4096] and returns a
fresh vptr in bucket 33133, different from w. -/

/-- C8: edit is not idempotent on c8_table for the Link of the box [0,1]^3:
edit(r) = 1875284480 but edit(edit(r)) = 1755762688. All three edit calls
succeed. -/
theorem c8_edit_link_not_idempotent :
    (edit c8_table 1875292160 .link c8_shape).1 = .ok 1875284480 ∧
    (edit (edit c8_table 1875292160 .link c8_shape).2 1875284480 .link c8_shape).1 =
      .ok 1755762688 := by
  constructor
  · decide
  · decide

/-! ## C6: staging emits ordered, disjoint, exactly-covering ranges -/

theorem getD_append_lt (l l' : List Bool) (i : Nat) (h : i < l.length) (d : Bool) :
    (l ++ l').getD i d = l.getD i d := by
  induction l generalizing i with
  | nil => simp at h
  | cons x xs ih =>
    cases i with
    | zero => rfl
    | succ i => simpa using ih i (by simpa using h)

theorem getD_append_len (l : List Bool) (b d : Bool) :
    (l ++ [b]).getD l.length d = b := by
  induction l with
  | nil => rfl
  | cons x xs ih => simp only [List.cons_append, List.length_cons]; exact ih

theorem bits_cover_append (bits : List Bool) (b : Bool) (B w : Nat) :
    bits_cover (bits ++ [b]) B w ↔
      bits_cover bits B w ∨ (b = true ∧ B * bits.length ≤ w ∧ w < B * (bits.length + 1)) := by
  unfold bits_cover
  constructor
  · rintro ⟨i, hi, hb, h1, h2⟩
    simp only [List.length_append, List.length_singleton] at hi
    rcases Nat.lt_or_ge i bits.length with h | h
    · exact Or.inl ⟨i, h, by rwa [getD_append_lt _ _ _ h] at hb, h1, h2⟩
    · have hi' : i = bits.length := by omega
      subst hi'
      rw [getD_append_len] at hb
      exact Or.inr ⟨hb, h1, h2⟩
  · rintro (⟨i, hi, hb, h1, h2⟩ | ⟨hb, h1, h2⟩)
    · exact ⟨i, by simp only [List.length_append, List.length_singleton]; omega,
        by rwa [getD_append_lt _ _ _ hi], h1, h2⟩
    · exact ⟨bits.length, by simp, by rw [getD_append_len]; exact hb, h1, h2⟩

theorem ranges_cover_append (rs : List (Nat × Nat × Nat)) (r : Nat × Nat × Nat) (w : Nat) :
    ranges_cover (rs ++ [r]) w ↔ ranges_cover rs w ∨ (r.2.1 ≤ w ∧ w < r.2.1 + r.2.2) := by
  unfold ranges_cover
  constructor
  · rintro ⟨x, hx, h1, h2⟩
    rcases List.mem_append.mp hx with hx | hx
    · exact Or.inl ⟨x, hx, h1, h2⟩
    · obtain rfl := List.mem_singleton.mp hx
      exact Or.inr ⟨h1, h2⟩
  · rintro (⟨x, hx, h1, h2⟩ | ⟨h1, h2⟩)
    · exact ⟨x, List.mem_append.mpr (Or.inl hx), h1, h2⟩
    · exact ⟨r, List.mem_append.mpr (Or.inr (List.mem_singleton.mpr rfl)), h1, h2⟩

theorem stage_inv_init (B : Nat) : StageInv B [] ⟨0, 0, 0, []⟩ := by
  refine ⟨by simp, by simp, by simp, by simp, ?_⟩
  intro w
  simp [ranges_cover, bits_cover]

theorem stage_inv_step (B : Nat) (bits : List Bool) (st : StageSt) (b : Bool)
    (h : StageInv B bits st) : StageInv B (bits ++ [b]) (step_bit B st b) := by
  obtain ⟨hdst, hpos, hbelow, hpair, hcover⟩ := h
  have hlen1 : (bits ++ [b]).length = bits.length + 1 := by simp
  have hmul : B * (bits.length + 1) = B * bits.length + B := by
    rw [Nat.mul_add, Nat.mul_one]
  cases b
  · simp only [step_bit, Bool.false_eq_true, if_false]
    by_cases hl : st.len ≠ 0
    · rw [if_pos hl]
      refine ⟨?_, ?_, ?_, ?_, ?_⟩
      · simp only [hlen1, hmul]; omega
      · intro r hr
        rcases List.mem_append.mp hr with hr | hr
        · exact hpos r hr
        · obtain rfl := List.mem_singleton.mp hr
          simpa using Nat.pos_of_ne_zero hl
      · intro r hr
        rcases List.mem_append.mp hr with hr | hr
        · have := hbelow r hr; simp only; omega
        · obtain rfl := List.mem_singleton.mp hr
          simp only [dst_gap]; omega
      · refine List.pairwise_append.mpr ⟨hpair, by simp, ?_⟩
        intro a ha b hb
        obtain rfl := List.mem_singleton.mp hb
        have := hbelow a ha
        simp only [dst_gap] at this ⊢
        omega
      · intro w
        rw [bits_cover_append, ← hcover w, ranges_cover_append]
        simp only [Bool.false_eq_true, false_and, or_false]
        constructor
        · rintro ((hr | ⟨h1, h2⟩) | ⟨h1, h2⟩) <;> first
            | exact Or.inl hr
            | (exact Or.inr ⟨by omega, by omega⟩)
        · rintro (hr | ⟨h1, h2⟩)
          · exact Or.inl (Or.inl hr)
          · exact Or.inl (Or.inr ⟨h1, h2⟩)
    · rw [if_neg hl]
      push_neg at hl
      refine ⟨?_, hpos, ?_, hpair, ?_⟩
      · simp only [hlen1, hmul]; omega
      · intro r hr
        have := hbelow r hr; simp only; omega
      · intro w
        rw [bits_cover_append, ← hcover w]
        simp only [Bool.false_eq_true, false_and, or_false]
        constructor
        · rintro (hr | ⟨h1, h2⟩)
          · exact Or.inl hr
          · omega
        · rintro (hr | ⟨h1, h2⟩)
          · exact Or.inl hr
          · omega
  · simp only [step_bit, if_true]
    refine ⟨?_, hpos, ?_, hpair, ?_⟩
    · simp only [hlen1, hmul]; omega
    · intro r hr
      have := hbelow r hr; simp only; omega
    · intro w
      rw [bits_cover_append, ← hcover w]
      simp only [true_and]
      constructor
      · rintro (hr | ⟨h1, h2⟩)
        · exact Or.inl (Or.inl hr)
        · rcases Nat.lt_or_ge w (st.dst + st.len) with hlt | hge
          · exact Or.inl (Or.inr ⟨h1, hlt⟩)
          · exact Or.inr ⟨by omega, by omega⟩
      · rintro ((hr | ⟨h1, h2⟩) | ⟨h1, h2⟩)
        · exact Or.inl hr
        · exact Or.inr ⟨h1, by omega⟩
        · exact Or.inr ⟨by omega, by omega⟩

theorem stage_inv_foldl (B : Nat) (new_bits : List Bool) :
    ∀ (bits : List Bool) (st : StageSt), StageInv B bits st →
      StageInv B (bits ++ new_bits) (new_bits.foldl (step_bit B) st) := by
  induction new_bits with
  | nil => intro bits st h; simpa using h
  | cons b rest ih =>
    intro bits st h
    have h2 := ih (bits ++ [b]) (step_bit B st b) (stage_inv_step B bits st b h)
    simpa [List.append_assoc] using h2

theorem stage_flush_props (B : Nat) (bits : List Bool) (st : StageSt)
    (h : StageInv B bits st) :
    (stage_flush st).Pairwise (dst_gap B) ∧ (∀ r ∈ stage_flush st, 0 < r.2.2) ∧
      (∀ w, ranges_cover (stage_flush st) w ↔ bits_cover bits B w) := by
  obtain ⟨hdst, hpos, hbelow, hpair, hcover⟩ := h
  unfold stage_flush
  by_cases hl : st.len ≠ 0
  · rw [if_pos hl]
    refine ⟨?_, ?_, ?_⟩
    · refine List.pairwise_append.mpr ⟨hpair, by simp, ?_⟩
      intro a ha b hb
      obtain rfl := List.mem_singleton.mp hb
      have := hbelow a ha
      simp only [dst_gap] at this ⊢
      omega
    · intro r hr
      rcases List.mem_append.mp hr with hr | hr
      · exact hpos r hr
      · obtain rfl := List.mem_singleton.mp hr
        simpa using Nat.pos_of_ne_zero hl
    · intro w
      rw [ranges_cover_append, ← hcover w]
  · rw [if_neg hl]
    push_neg at hl
    refine ⟨hpair, hpos, ?_⟩
    intro w
    rw [← hcover w]
    constructor
    · exact fun hr => Or.inl hr
    · rintro (hr | ⟨h1, h2⟩)
      · exact hr
      · omega

theorem foldl_step_bit_trues (B k : Nat) (st : StageSt) :
    (List.replicate k true).foldl (step_bit B) st = { st with len := st.len + k * B } := by
  induction k generalizing st with
  | zero => simp
  | succ k ih =>
    rw [List.replicate_succ, List.foldl_cons]
    have hstep : step_bit B st true = { st with len := st.len + B } := by simp [step_bit]
    rw [hstep, ih]
    have harith : st.len + B + k * B = st.len + (k + 1) * B := by
      rw [Nat.succ_mul]; omega
    simp [harith]

theorem foldl_step_bit_falses (B k : Nat) (st : StageSt) (h : st.len = 0) :
    (List.replicate k false).foldl (step_bit B) st = { st with dst := st.dst + k * B } := by
  induction k generalizing st with
  | zero => simp
  | succ k ih =>
    rw [List.replicate_succ, List.foldl_cons]
    have hstep : step_bit B st false = { st with dst := st.dst + B } := by
      simp [step_bit, h]
    rw [hstep, ih _ (by simpa using h)]
    have harith : st.dst + B + k * B = st.dst + (k + 1) * B := by
      rw [Nat.succ_mul]; omega
    simp [harith]

theorem step_chunk_eq (st : StageSt) (c : Nat) :
    step_chunk st c = (chunk_bits c).foldl (step_bit POOL_MASK_BIT_LEN) st := by
  by_cases h1 : c = 2 ^ 128 - 1
  · subst h1
    have hbits : chunk_bits (2 ^ 128 - 1) = List.replicate 128 true := by decide
    rw [hbits, foldl_step_bit_trues]
    simp [step_chunk]
  · by_cases h0 : c = 0
    · subst h0
      have hbits : chunk_bits 0 = List.replicate 128 false := by decide
      rw [hbits]
      have hrep : (List.replicate 128 false : List Bool) = false :: List.replicate 127 false := rfl
      unfold step_chunk
      rw [if_neg (by decide : ¬(0 : Nat) = 2 ^ 128 - 1), if_pos rfl, hrep, List.foldl_cons]
      by_cases hl : st.len ≠ 0
      · rw [if_pos hl]
        rw [show step_bit POOL_MASK_BIT_LEN st false =
            { src := st.src + st.len, dst := st.dst + st.len + POOL_MASK_BIT_LEN, len := 0
            , out := st.out ++ [(st.src, st.dst, st.len)] } from by
          simp [step_bit, hl]]
        rw [foldl_step_bit_falses _ _ _ rfl]
        have : st.dst + st.len + POOL_MASK_BIT_LEN + 127 * POOL_MASK_BIT_LEN =
            st.dst + st.len + 128 * POOL_MASK_BIT_LEN := by
          have hX := POOL_MASK_BIT_LEN_eq
          omega
        simp [this]
      · push_neg at hl
        rw [if_neg (by omega : ¬st.len ≠ 0)]
        rw [show step_bit POOL_MASK_BIT_LEN st false =
            { st with dst := st.dst + POOL_MASK_BIT_LEN } from by
          simp [step_bit, hl]]
        rw [foldl_step_bit_falses _ _ _ (by simpa using hl)]
        have : st.dst + POOL_MASK_BIT_LEN + 127 * POOL_MASK_BIT_LEN =
            st.dst + 128 * POOL_MASK_BIT_LEN := by
          have hX := POOL_MASK_BIT_LEN_eq
          omega
        simp [this]
    · unfold step_chunk
      rw [if_neg h1, if_neg h0]

theorem foldl_step_chunk (chunks : List Nat) (st : StageSt) :
    chunks.foldl step_chunk st =
      ((chunks.map chunk_bits).flatten).foldl (step_bit POOL_MASK_BIT_LEN) st := by
  induction chunks generalizing st with
  | nil => rfl
  | cons c rest ih =>
    simp only [List.foldl_cons, List.map_cons, List.flatten_cons, List.foldl_append]
    rw [step_chunk_eq, ih]

/-- C6: for every tracker mask state, both passes of stage emit their
(src, dst) ranges in strictly increasing destination order with at least one
clear bit's region between consecutive ranges (so consecutive set bits are
always merged and ranges are pairwise disjoint), every emitted range is
nonempty, and the destination ranges together cover exactly the union of the
set bits' regions — one LUT partition per page-table-mask bit, one page per
pool-mask bit (the pool mask read as its little-endian u128 chunks, with the
all-ones / all-zero fast paths). -/
theorem c6_staging_ordered_disjoint_exact_cover :
    (∀ mask : Nat,
      (stage_lut mask).Pairwise (dst_gap LUT_MASK_BIT_LEN) ∧
      (∀ r ∈ stage_lut mask, 0 < r.2.2) ∧
      (∀ w, ranges_cover (stage_lut mask) w ↔
        bits_cover (byte_bits mask) LUT_MASK_BIT_LEN w)) ∧
    (∀ chunks : List Nat,
      (stage_pool chunks).Pairwise (dst_gap POOL_MASK_BIT_LEN) ∧
      (∀ r ∈ stage_pool chunks, 0 < r.2.2) ∧
      (∀ w, ranges_cover (stage_pool chunks) w ↔
        bits_cover ((chunks.map chunk_bits).flatten) POOL_MASK_BIT_LEN w)) := by
  constructor
  · intro mask
    have hinv := stage_inv_foldl LUT_MASK_BIT_LEN (byte_bits mask) [] ⟨0, 0, 0, []⟩
      (stage_inv_init LUT_MASK_BIT_LEN)
    simp only [List.nil_append] at hinv
    exact stage_flush_props LUT_MASK_BIT_LEN (byte_bits mask) _ hinv
  · intro chunks
    have hinv := stage_inv_foldl POOL_MASK_BIT_LEN ((chunks.map chunk_bits).flatten) []
      ⟨0, 0, 0, []⟩ (stage_inv_init POOL_MASK_BIT_LEN)
    simp only [List.nil_append] at hinv
    have := stage_flush_props POOL_MASK_BIT_LEN _ _ hinv
    unfold stage_pool
    rw [foldl_step_chunk]
    exact this

set_option maxRecDepth 10000 in
/-- Witness for C6 at the chunk list [3]: stage_pool emits the single range
(0, 0, 1024) covering the two set bits' pages, and word 700 is covered. -/
theorem c6_witness :
    0 < ((0, 0, 1024) : Nat × Nat × Nat).2.2 ∧ ranges_cover (stage_pool [3]) 700 :=
  ⟨(c6_staging_ordered_disjoint_exact_cover.2 [3]).2.1 (0, 0, 1024) (by decide),
   ((c6_staging_ordered_disjoint_exact_cover.2 [3]).2.2 700).mpr
     ⟨1, by decide, by decide, by decide, by decide⟩⟩

end VoxelDag
